import Mathlib

/-!
Verification of the llmsmith job/memory/placeholder engine and the
function-calling agent loops, modelled shallowly from the Python source
(`llmsmith/job/base.py`, `llmsmith/job/job.py`, `llmsmith/task/models.py`,
`llmsmith/task/textgen/{gemini,groq,cohere}.py`,
`llmsmith/agent/function/{openai,gemini,groq,cohere}.py`).

Python machine-level conventions used throughout the embedding:
* a raised exception is an `Except.error` / a `some` in an error slot;
* `dict[str, V]` is an insertion-ordered association list with at most one
  entry per key, written to by an in-place upsert (`dictSet`);
* `str.replace(old, new)` is `pyReplace`: a single left-to-right scan
  replacing each non-overlapping occurrence of `old` (the patterns used by
  the source are never empty);
* dynamically typed values (`Any`) appearing where control flow inspects
  them are `PyObj`; opaque payloads are carried as `String`.
-/

namespace LLMSmith

/-- A dynamically typed Python value, used where the source code branches on
the runtime type of a value (`isinstance(x, str)`). -/
inductive PyObj where
  | str (s : String)
  | int (n : Int)
  | pylist (items : List String)
  | pynone
deriving DecidableEq, Repr

/-- Whether a `PyObj` is a Python `str` (the `isinstance(content, str)` test). -/
def PyObj.isStr : PyObj → Bool
  | .str _ => true
  | _ => false

/-- The exceptions raised by the modelled fragment of the library. -/
inductive PyExc where
  | valueError (msg : String)
  | typeError (msg : String)
  | attributeError (msg : String)
  | keyError (key : String)
  | maxTurnsReached
  | textGenFailed (reason : String)
  | promptBlocked (reason : String)
  | taskFailure (msg : String)
deriving DecidableEq, Repr

/-- Worker for `pyReplace`.  `skip` counts characters still to be consumed
without inspection (the tail of a pattern occurrence that was already
replaced); at `skip = 0` the scan either matches the pattern `p` at the
current position — emitting the replacement `r` and skipping the rest of the
occurrence — or copies one character and advances.  This is exactly the
left-to-right, non-overlapping scan of CPython `str.replace` for a non-empty
pattern. -/
def replaceAllAux (p r : List Char) : Nat → List Char → List Char
  | _, [] => []
  | Nat.succ k, _ :: s => replaceAllAux p r k s
  | 0, c :: s =>
    if p ≠ [] ∧ p <+: (c :: s) then r ++ replaceAllAux p r (p.length - 1) s
    else c :: replaceAllAux p r 0 s

/-- CPython `s.replace(p, r)` for a non-empty pattern `p`, on character lists. -/
def replaceAll (s p r : List Char) : List Char := replaceAllAux p r 0 s

/-- CPython `s.replace(p, r)` on `String`s (the source only ever calls it
with non-empty patterns such as a placeholder literal). -/
def pyReplace (s p r : String) : String := ⟨replaceAll s.data p.data r.data⟩

theorem replaceAllAux_skip (p r : List Char) :
    ∀ (k : Nat) (s : List Char), replaceAllAux p r k s = replaceAllAux p r 0 (s.drop k) := by
  intro k
  induction k with
  | zero => intro s; simp
  | succ k ih =>
    intro s
    cases s with
    | nil => simp [replaceAllAux]
    | cons c s => simpa [replaceAllAux] using ih s

theorem replaceAll_nil (p r : List Char) : replaceAll [] p r = [] := rfl

theorem replaceAll_cons_skip {p : List Char} (r : List Char) {c : Char}
    {s : List Char} (h : ¬ p <+: (c :: s)) :
    replaceAll (c :: s) p r = c :: replaceAll s p r := by
  simp only [replaceAll, replaceAllAux]
  rw [if_neg]
  intro hand
  exact h hand.2

theorem replaceAll_match_head {p : List Char} (r : List Char) {s : List Char}
    (hp : p ≠ []) (h : p <+: s) :
    replaceAll s p r = r ++ replaceAll (s.drop p.length) p r := by
  cases s with
  | nil =>
    rcases h with ⟨t, ht⟩
    cases p with
    | nil => exact absurd rfl hp
    | cons a q => simp at ht
  | cons c s =>
    simp only [replaceAll, replaceAllAux]
    rw [if_pos ⟨hp, h⟩, replaceAllAux_skip]
    cases p with
    | nil => exact absurd rfl hp
    | cons a q => simp

/-- If the pattern does not occur in `s` at all, `replaceAll` leaves `s`
verbatim (in particular it raises no error): this is the "unresolved
placeholders are a silent no-op" half of the resolver contract. -/
theorem replaceAll_absent {p : List Char} (r : List Char) :
    ∀ {s : List Char}, ¬ p <:+: s → replaceAll s p r = s := by
  intro s
  induction s with
  | nil => intro _; rfl
  | cons c s ih =>
    intro h
    have hpre : ¬ p <+: (c :: s) := fun hp => h hp.isInfix
    rw [replaceAll_cons_skip r hpre, ih (fun hi => h (List.infix_cons hi))]

/-- Every occurrence of the pattern is replaced: if no occurrence of `p`
starts strictly inside the prefix `a` (no non-empty suffix of `a` extends to
an occurrence of `p`), the scan copies `a`, replaces the shown occurrence of
`p`, and goes on to replace the rest of `b` in the same way. -/
theorem replaceAll_append_of_first {p : List Char} (r : List Char) (hp : p ≠ []) :
    ∀ (a b : List Char), (∀ a₂ ∈ a.tails, a₂ ≠ [] → ¬ p <+: (a₂ ++ p ++ b)) →
      replaceAll (a ++ p ++ b) p r = a ++ r ++ replaceAll b p r := by
  intro a
  induction a with
  | nil =>
    intro b _
    have h : p <+: (p ++ b) := ⟨b, rfl⟩
    simp only [List.nil_append]
    rw [replaceAll_match_head r hp h, List.drop_left]
  | cons c a ih =>
    intro b h
    have hpre : ¬ p <+: (c :: (a ++ p ++ b)) := by
      have := h (c :: a) (by simp [List.tails]) (by simp)
      simpa using this
    have hih : ∀ a₂ ∈ a.tails, a₂ ≠ [] → ¬ p <+: (a₂ ++ p ++ b) := by
      intro a₂ hmem hne
      exact h a₂ (by simp [List.tails]; right; simpa using hmem) hne
    calc replaceAll (c :: a ++ p ++ b) p r
        = c :: replaceAll (a ++ p ++ b) p r := replaceAll_cons_skip r hpre
      _ = c :: a ++ r ++ replaceAll b p r := by rw [ih b hih]; simp

/-! ## `llmsmith/task/models.py` -/

/-- `TaskInput` (`task/models.py`): `{ content: T }`. -/
structure TaskInput (α : Type) where
  content : α
deriving DecidableEq, Repr

/-- `TaskOutput` (`task/models.py`): `{ content: T, raw_output: Any }`.
The opaque `raw_output` payload is carried as a `String`. -/
structure TaskOutput (α : Type) where
  content : α
  raw_output : String
deriving DecidableEq, Repr

/-- `FunctionCall` (`task/models.py`): `{ id: str | None, args: dict }`.
The dataclass declares exactly the two fields `id` and `args`. -/
structure FunctionCall where
  id : Option String
  args : List (String × PyObj)
deriving DecidableEq, Repr

/-- `ChatResponse` (`task/models.py`): `text` may be `None` at runtime,
`function_calls` is a dict defaulting to `None`. -/
structure ChatResponse where
  text : Option String
  raw_output : String
  function_calls : Option (List (String × FunctionCall))
deriving DecidableEq, Repr

/-! ## Python dicts as insertion-ordered association lists -/

/-- `d[k] = v` on a Python dict: replace the value in place if the key is
present (keeping its insertion position), otherwise append the new entry. -/
def dictSet (k : String) (v : α) : List (String × α) → List (String × α)
  | [] => [(k, v)]
  | (k2, v2) :: rest =>
    if k2 = k then (k, v) :: rest else (k2, v2) :: dictSet k v rest

/-- `d[k]` guarded by `k in d`: `some` value if present, `none` otherwise. -/
def dictGet (k : String) : List (String × α) → Option α
  | [] => none
  | (k2, v) :: rest => if k2 = k then some v else dictGet k rest

theorem dictGet_dictSet_self (k : String) (v : α) :
    ∀ l : List (String × α), dictGet k (dictSet k v l) = some v := by
  intro l
  induction l with
  | nil => simp [dictSet, dictGet]
  | cons kv rest ih =>
    by_cases h : kv.1 = k
    · simp [dictSet, dictGet, h]
    · simpa [dictSet, dictGet, h] using ih

theorem dictGet_dictSet_ne (k k' : String) (v : α) (hne : k' ≠ k) :
    ∀ l : List (String × α), dictGet k' (dictSet k v l) = dictGet k' l := by
  intro l
  have hkk : ¬ k = k' := fun h => hne h.symm
  induction l with
  | nil => simp [dictSet, dictGet, hkk]
  | cons kv rest ih =>
    by_cases h : kv.1 = k
    · have h' : ¬ kv.1 = k' := fun hh => hne (hh ▸ h ▸ rfl)
      simp only [dictSet, dictGet, if_pos h]
      rw [if_neg hkk]
      cases kv with
      | mk k2 v2 =>
        simp only at h h'
        simp [dictGet, h, h', hkk]
    · cases kv with
      | mk k2 v2 =>
        simp only [dictSet, dictGet] at *
        rw [if_neg h]
        by_cases h' : k2 = k'
        · simp [dictGet, h']
        · simpa [dictGet, h'] using ih

theorem dictGet_eq_none_of_not_mem (k : String) :
    ∀ l : List (String × α), k ∉ l.map Prod.fst → dictGet k l = none := by
  intro l
  induction l with
  | nil => intro _; rfl
  | cons kv rest ih =>
    intro h
    simp only [List.map_cons, List.mem_cons] at h
    push_neg at h
    simp [dictGet, fun hh : kv.1 = k => h.1 hh.symm, ih h.2, Ne.symm h.1]

theorem dictGet_isSome_of_mem (k : String) :
    ∀ l : List (String × α), k ∈ l.map Prod.fst → (dictGet k l).isSome := by
  intro l
  induction l with
  | nil => simp
  | cons kv rest ih =>
    intro h
    by_cases hk : kv.1 = k
    · simp [dictGet, hk]
    · simp only [List.map_cons, List.mem_cons] at h
      rcases h with h | h
      · exact absurd h.symm hk
      · simpa [dictGet, hk] using ih h

/-! ## `llmsmith/job/base.py` — `JobMemory` -/

/-- `JobMemory` (`job/base.py`): two dicts holding each task's recorded
input and output, keyed by task name. -/
structure JobMemory where
  inputs : List (String × TaskInput String)
  outputs : List (String × TaskOutput String)
deriving DecidableEq, Repr

/-- `JobMemory()` — both stores start empty. -/
def JobMemory.init : JobMemory := ⟨[], []⟩

/-- `add_task_input`: `self.inputs[key] = task_input` (unconditional upsert). -/
def JobMemory.add_task_input (m : JobMemory) (key : String)
    (task_input : TaskInput String) : JobMemory :=
  { m with inputs := dictSet key task_input m.inputs }

/-- `add_task_output`: `self.outputs[key] = task_output` (unconditional upsert). -/
def JobMemory.add_task_output (m : JobMemory) (key : String)
    (task_output : TaskOutput String) : JobMemory :=
  { m with outputs := dictSet key task_output m.outputs }

/-- `get_task_input`: `None` when the key is absent, the stored value otherwise. -/
def JobMemory.get_task_input (m : JobMemory) (key : String) : Option (TaskInput String) :=
  dictGet key m.inputs

/-- `get_task_output`: `None` when the key is absent, the stored value otherwise. -/
def JobMemory.get_task_output (m : JobMemory) (key : String) : Option (TaskOutput String) :=
  dictGet key m.outputs

/-! ## `llmsmith/job/base.py` — `_JobTask` and the placeholder resolver -/

/-- A registered `Task` (`task/base.py`): a name plus its `execute`
behaviour.  `execute` may raise (model: `Except.error`); the typed model
fixes string content, matching the resolver's contract. -/
structure MTask where
  name : String
  run : TaskInput String → Except PyExc (TaskOutput String)

/-- `_JobTask` (`job/base.py`): a task paired with its input template. -/
structure JobTask where
  task : MTask
  input_template : String

/-- The literal placeholder `"{{root}}"`. -/
def rootPlaceholder : String := "\x7b\x7broot\x7d\x7d"

/-- The literal placeholder `"{{<key>.input}}"` (Python
`f"{{{{{key}.input}}}}"`). -/
def inputPlaceholder (key : String) : String := "\x7b\x7b" ++ key ++ ".input\x7d\x7d"

/-- The literal placeholder `"{{<key>.output}}"` (Python
`f"{{{{{key}.output}}}}"`). -/
def outputPlaceholder (key : String) : String := "\x7b\x7b" ++ key ++ ".output\x7d\x7d"

/-- `_JobTask._replace_input_template_placeholders`, as a function of the
template: first replace every `{{root}}` with the user input, then walk the
recorded inputs in insertion order replacing `{{key.input}}`, then the
recorded outputs replacing `{{key.output}}`. -/
def resolveTemplate (template user_input : String) (memory : JobMemory) : String :=
  let updated := pyReplace template rootPlaceholder user_input
  let updated := memory.inputs.foldl
    (fun acc kv => pyReplace acc (inputPlaceholder kv.1) kv.2.content) updated
  memory.outputs.foldl
    (fun acc kv => pyReplace acc (outputPlaceholder kv.1) kv.2.content) updated

/-- `_JobTask._replace_input_template_placeholders(user_input, memory)`. -/
def JobTask.replace_input_template_placeholders (jt : JobTask) (user_input : String)
    (memory : JobMemory) : String :=
  resolveTemplate jt.input_template user_input memory

/-- `_JobTask.execute(user_input, memory)`: resolve the template, record the
resolved input under the task's name, run the task, and on success record
its output.  The returned pair is the memory as the Python object stands
when control leaves the method, plus the propagated exception if the task
raised. -/
def JobTask.execute (jt : JobTask) (user_input : String) (memory : JobMemory) :
    JobMemory × Option PyExc :=
  let input_updated := jt.replace_input_template_placeholders user_input memory
  let task_input : TaskInput String := ⟨input_updated⟩
  let mem1 := memory.add_task_input jt.task.name task_input
  match jt.task.run task_input with
  | .ok task_output => (mem1.add_task_output jt.task.name task_output, none)
  | .error e => (mem1, some e)

/-! ## `llmsmith/job/base.py` — `Job._validate_task_names`,
    `llmsmith/job/job.py` — `SequentialJob` -/

/-- Loop body of `Job._validate_task_names`: walk the tasks incrementing a
per-name counter; raise `ValueError` the first time a counter exceeds 1. -/
def validateTaskNamesAux (counts : List (String × Nat)) :
    List JobTask → Option PyExc
  | [] => none
  | t :: rest =>
    let n := t.task.name
    let c := (dictGet n counts).getD 0 + 1
    if c > 1 then
      some (.valueError ("Duplicate task name " ++ n ++ " present in the job"))
    else validateTaskNamesAux (dictSet n c counts) rest

/-- `Job._validate_task_names(tasks)`: `none` when no duplicate task name,
otherwise the `ValueError` raised at the first duplicate. -/
def validate_task_names (tasks : List JobTask) : Option PyExc :=
  validateTaskNamesAux [] tasks

/-- `SequentialJob` state: the registered `_JobTask` list (`_tasks`) and the
owned `JobMemory` (`_memory`). -/
structure SequentialJob where
  tasks : List JobTask
  memory : JobMemory

/-- `SequentialJob()` — empty task list, fresh memory. -/
def SequentialJob.init : SequentialJob := ⟨[], JobMemory.init⟩

/-- `SequentialJob.add_task(task, input_template)`.  The source appends the
wrapped task to `self._tasks` and only then validates; on a duplicate name
the `ValueError` is raised with the appended list already in place.  (The
`_validate_task_types` isinstance check is vacuously satisfied in the typed
model.)  The default for `input_template` in the source is `"{{root}}"`. -/
def SequentialJob.add_task (job : SequentialJob) (task : MTask)
    (input_template : String) : SequentialJob × Option PyExc :=
  let chain_task : JobTask := ⟨task, input_template⟩
  let job2 : SequentialJob := { job with tasks := job.tasks ++ [chain_task] }
  (job2, validate_task_names job2.tasks)

/-- The loop body of `SequentialJob.run`: execute the tasks one at a time in
list order, threading the memory; an exception from a task aborts the loop
and propagates with the memory as it stood at the raise. -/
def runTasksFrom (user_input : String) : JobMemory → List JobTask → JobMemory × Option PyExc
  | memory, [] => (memory, none)
  | memory, t :: rest =>
    match t.execute user_input memory with
    | (m, some e) => (m, some e)
    | (m, none) => runTasksFrom user_input m rest

/-- `SequentialJob.run(user_input)`. -/
def SequentialJob.run (job : SequentialJob) (user_input : String) :
    JobMemory × Option PyExc :=
  runTasksFrom user_input job.memory job.tasks

/-! ## Execution lemmas for the sequential job runner -/

/-- The task names of a registered task list, in registration order. -/
def taskNames (ts : List JobTask) : List String := ts.map fun t => t.task.name

theorem execute_inputs (jt : JobTask) (u : String) (m : JobMemory) :
    ((jt.execute u m).1).inputs
      = dictSet jt.task.name ⟨jt.replace_input_template_placeholders u m⟩ m.inputs := by
  simp only [JobTask.execute]
  split <;> simp [JobMemory.add_task_input, JobMemory.add_task_output]

theorem execute_outputs_get_ne (jt : JobTask) (u : String) (m : JobMemory)
    (k : String) (hk : k ≠ jt.task.name) :
    dictGet k ((jt.execute u m).1).outputs = dictGet k m.outputs := by
  simp only [JobTask.execute]
  split
  · simp [JobMemory.add_task_input, JobMemory.add_task_output,
      dictGet_dictSet_ne _ _ _ hk]
  · rfl

theorem execute_eq_ok (jt : JobTask) (u : String) (m : JobMemory)
    (o : TaskOutput String)
    (h : jt.task.run ⟨jt.replace_input_template_placeholders u m⟩ = .ok o) :
    jt.execute u m
      = ((m.add_task_input jt.task.name ⟨jt.replace_input_template_placeholders u m⟩).add_task_output
           jt.task.name o, none) := by
  simp [JobTask.execute, h]

theorem execute_eq_error (jt : JobTask) (u : String) (m : JobMemory) (e : PyExc)
    (h : jt.task.run ⟨jt.replace_input_template_placeholders u m⟩ = .error e) :
    jt.execute u m
      = (m.add_task_input jt.task.name ⟨jt.replace_input_template_placeholders u m⟩, some e) := by
  simp [JobTask.execute, h]

theorem runTasksFrom_nil (u : String) (m : JobMemory) :
    runTasksFrom u m [] = (m, none) := rfl

theorem runTasksFrom_cons_ok {t : JobTask} {u : String} {m m1 : JobMemory}
    (rest : List JobTask) (h : t.execute u m = (m1, none)) :
    runTasksFrom u m (t :: rest) = runTasksFrom u m1 rest := by
  simp [runTasksFrom, h]

theorem runTasksFrom_cons_error {t : JobTask} {u : String} {m m1 : JobMemory}
    {e : PyExc} (rest : List JobTask) (h : t.execute u m = (m1, some e)) :
    runTasksFrom u m (t :: rest) = (m1, some e) := by
  simp [runTasksFrom, h]

theorem runTasksFrom_inputs_ne (u k : String) :
    ∀ (ts : List JobTask) (m : JobMemory), k ∉ taskNames ts →
      dictGet k ((runTasksFrom u m ts).1).inputs = dictGet k m.inputs := by
  intro ts
  induction ts with
  | nil => intro m _; rfl
  | cons t rest ih =>
    intro m hk
    simp only [taskNames, List.map_cons, List.mem_cons] at hk
    push_neg at hk
    rcases hx : t.execute u m with ⟨m1, e⟩
    have hins : m1.inputs
        = dictSet t.task.name ⟨t.replace_input_template_placeholders u m⟩ m.inputs := by
      have h := execute_inputs t u m
      rw [hx] at h
      exact h
    have hm1 : dictGet k m1.inputs = dictGet k m.inputs := by
      rw [hins]
      exact dictGet_dictSet_ne _ _ _ hk.1 _
    cases e with
    | some err => rw [runTasksFrom_cons_error rest hx]; exact hm1
    | none =>
      rw [runTasksFrom_cons_ok rest hx, ih m1 hk.2]
      exact hm1

theorem dictGet_isSome_dictSet (k k' : String) (v : α) (l : List (String × α))
    (h : (dictGet k l).isSome) : (dictGet k (dictSet k' v l)).isSome := by
  by_cases hk : k = k'
  · subst hk; simp [dictGet_dictSet_self]
  · rwa [dictGet_dictSet_ne _ _ _ hk]

theorem execute_outputs_isSome (jt : JobTask) (u : String) (m : JobMemory)
    (k : String) (h : (dictGet k m.outputs).isSome) :
    (dictGet k ((jt.execute u m).1).outputs).isSome := by
  simp only [JobTask.execute]
  split
  · simpa [JobMemory.add_task_input, JobMemory.add_task_output] using
      dictGet_isSome_dictSet k jt.task.name _ m.outputs h
  · simpa [JobMemory.add_task_input] using h

theorem runTasksFrom_outputs_mono (u k : String) :
    ∀ (ts : List JobTask) (m : JobMemory), (dictGet k m.outputs).isSome →
      (dictGet k ((runTasksFrom u m ts).1).outputs).isSome := by
  intro ts
  induction ts with
  | nil => intro m h; exact h
  | cons t rest ih =>
    intro m h
    rcases hx : t.execute u m with ⟨m1, e⟩
    have h1 : (dictGet k m1.outputs).isSome := by
      have := execute_outputs_isSome t u m k h
      rwa [hx] at this
    cases e with
    | some err => rw [runTasksFrom_cons_error rest hx]; exact h1
    | none => rw [runTasksFrom_cons_ok rest hx]; exact ih m1 h1

/-- Every task of a run that finished without an exception has its output
recorded in the resulting memory. -/
theorem runTasksFrom_outputs_recorded (u : String) :
    ∀ (ts : List JobTask) (m : JobMemory), (runTasksFrom u m ts).2 = none →
      ∀ t ∈ ts, (dictGet t.task.name ((runTasksFrom u m ts).1).outputs).isSome := by
  intro ts
  induction ts with
  | nil => intro m _ t ht; exact absurd ht (by simp)
  | cons s rest ih =>
    intro m hok t ht
    rcases hx : s.execute u m with ⟨m1, e⟩
    cases e with
    | some err =>
      rw [runTasksFrom_cons_error rest hx] at hok
      exact absurd hok (by simp)
    | none =>
      rw [runTasksFrom_cons_ok rest hx] at hok ⊢
      rcases List.mem_cons.mp ht with h | h
      · subst h
        have hself : (dictGet t.task.name m1.outputs).isSome := by
          rcases ho : t.task.run ⟨t.replace_input_template_placeholders u m⟩ with o | o
          · rw [execute_eq_error t u m o ho] at hx
            cases hx
          · rw [execute_eq_ok t u m o ho] at hx
            cases hx
            simp [JobMemory.add_task_output, JobMemory.add_task_input,
              dictGet_dictSet_self]
        exact runTasksFrom_outputs_mono u _ rest m1 hself
      · exact ih m1 hok t h

/-- Core of claim C1: in a sequential run, the `N`-th task's recorded input
is the template resolved against the memory exactly as produced by tasks
`0..N-1` (provided those ran without an exception and task names are
unique). -/
theorem sequentialRun_resolves_after_done (u : String) :
    ∀ (ts : List JobTask) (m0 : JobMemory) (N : Nat) (hN : N < ts.length),
      (taskNames ts).Nodup →
      (runTasksFrom u m0 (ts.take N)).2 = none →
      dictGet (ts.get ⟨N, hN⟩).task.name ((runTasksFrom u m0 ts).1).inputs
        = some ⟨(ts.get ⟨N, hN⟩).replace_input_template_placeholders u
                  ((runTasksFrom u m0 (ts.take N)).1)⟩ := by
  intro ts
  induction ts with
  | nil => intro m0 N hN; exact absurd hN (by simp)
  | cons t rest ih =>
    intro m0 N hN hnodup hok
    have hnodup2 : (taskNames rest).Nodup ∧ t.task.name ∉ taskNames rest := by
      simp only [taskNames, List.map_cons, List.nodup_cons] at hnodup
      exact ⟨hnodup.2, hnodup.1⟩
    cases N with
    | zero =>
      simp only [List.take_zero, runTasksFrom_nil, List.get] at hok ⊢
      rcases hx : t.execute u m0 with ⟨m1, e⟩
      have hins : m1.inputs
          = dictSet t.task.name ⟨t.replace_input_template_placeholders u m0⟩ m0.inputs := by
        have h := execute_inputs t u m0
        rw [hx] at h
        exact h
      have hm1 : dictGet t.task.name m1.inputs
          = some ⟨t.replace_input_template_placeholders u m0⟩ := by
        rw [hins]
        exact dictGet_dictSet_self _ _ _
      cases e with
      | some err => rw [runTasksFrom_cons_error rest hx]; exact hm1
      | none =>
        rw [runTasksFrom_cons_ok rest hx,
          runTasksFrom_inputs_ne u _ rest m1 hnodup2.2]
        exact hm1
    | succ N' =>
      have hN' : N' < rest.length := by
        simp only [List.length_cons] at hN
        omega
      simp only [List.take_succ_cons, List.get] at hok ⊢
      rcases hx : t.execute u m0 with ⟨m1, e⟩
      cases e with
      | some err =>
        exfalso
        rw [runTasksFrom_cons_error _ hx] at hok
        exact Option.some_ne_none err hok
      | none =>
        rw [runTasksFrom_cons_ok _ hx] at hok
        rw [runTasksFrom_cons_ok rest hx, runTasksFrom_cons_ok (rest.take N') hx]
        exact ih m1 N' hN' hnodup2.1 hok

/-- Core of claim C9: if the tasks before index `N` finished without an
exception and task `N` itself raises `e`, the whole run returns that
exception together with the memory as it stood at the raise: the memory
after the prefix, extended with task `N`'s resolved input. -/
theorem sequentialRun_error_state (u : String) :
    ∀ (ts : List JobTask) (m0 : JobMemory) (N : Nat) (hN : N < ts.length) (e : PyExc),
      (runTasksFrom u m0 (ts.take N)).2 = none →
      (ts.get ⟨N, hN⟩).task.run
          ⟨(ts.get ⟨N, hN⟩).replace_input_template_placeholders u
              ((runTasksFrom u m0 (ts.take N)).1)⟩ = .error e →
      runTasksFrom u m0 ts
        = (((runTasksFrom u m0 (ts.take N)).1).add_task_input
             (ts.get ⟨N, hN⟩).task.name
             ⟨(ts.get ⟨N, hN⟩).replace_input_template_placeholders u
                ((runTasksFrom u m0 (ts.take N)).1)⟩,
           some e) := by
  intro ts
  induction ts with
  | nil => intro m0 N hN; exact absurd hN (by simp)
  | cons t rest ih =>
    intro m0 N hN e hok herr
    cases N with
    | zero =>
      simp only [List.take_zero, runTasksFrom_nil, List.get] at hok herr ⊢
      rw [runTasksFrom_cons_error rest (execute_eq_error t u m0 e herr)]
    | succ N' =>
      have hN' : N' < rest.length := by
        simp only [List.length_cons] at hN
        omega
      simp only [List.take_succ_cons, List.get] at hok herr ⊢
      rcases hx : t.execute u m0 with ⟨m1, e1⟩
      cases e1 with
      | some err =>
        exfalso
        rw [runTasksFrom_cons_error _ hx] at hok
        exact Option.some_ne_none err hok
      | none =>
        rw [runTasksFrom_cons_ok _ hx] at hok herr
        rw [runTasksFrom_cons_ok rest hx, runTasksFrom_cons_ok (rest.take N') hx]
        exact ih m1 N' hN' e hok herr

/-! ## Validation lemmas for duplicate task names -/

theorem validateTaskNamesAux_none_iff :
    ∀ (ts : List JobTask) (counts : List (String × Nat)),
      validateTaskNamesAux counts ts = none ↔
        (taskNames ts).Nodup ∧ ∀ t ∈ ts, (dictGet t.task.name counts).getD 0 = 0 := by
  intro ts
  induction ts with
  | nil => intro counts; simp [validateTaskNamesAux, taskNames]
  | cons t rest ih =>
    intro counts
    by_cases h : (dictGet t.task.name counts).getD 0 = 0
    · have hnotgt : ¬ ((dictGet t.task.name counts).getD 0 + 1 > 1) := by omega
      simp only [validateTaskNamesAux, if_neg hnotgt]
      rw [ih]
      constructor
      · rintro ⟨hnd, hz⟩
        have hnotin : t.task.name ∉ taskNames rest := by
          intro hmem
          simp only [taskNames, List.mem_map] at hmem
          rcases hmem with ⟨s, hs, hname⟩
          have := hz s hs
          rw [hname, dictGet_dictSet_self] at this
          simp at this
        refine ⟨?_, ?_⟩
        · simp only [taskNames, List.map_cons, List.nodup_cons]
          exact ⟨hnotin, hnd⟩
        · intro s hs
          rcases List.mem_cons.mp hs with hs | hs
          · subst hs; exact h
          · have := hz s hs
            have hne : s.task.name ≠ t.task.name := by
              intro heq
              rw [heq, dictGet_dictSet_self] at this
              simp at this
            rwa [dictGet_dictSet_ne _ _ _ hne] at this
      · rintro ⟨hnd, hz⟩
        simp only [taskNames, List.map_cons, List.nodup_cons] at hnd
        refine ⟨hnd.2, ?_⟩
        intro s hs
        have hne : s.task.name ≠ t.task.name := by
          intro heq
          apply hnd.1
          simp only [taskNames, List.mem_map]
          exact ⟨s, hs, heq⟩
        rw [dictGet_dictSet_ne _ _ _ hne]
        exact hz s (List.mem_cons_of_mem t hs)
    · have hgt : (dictGet t.task.name counts).getD 0 + 1 > 1 := by omega
      simp only [validateTaskNamesAux, if_pos hgt]
      constructor
      · intro hc; cases hc
      · rintro ⟨_, hz⟩
        exact absurd (hz t (List.mem_cons_self t rest)) h

/-- `_validate_task_names` accepts a task list exactly when its names are
pairwise distinct. -/
theorem validate_task_names_none_iff (ts : List JobTask) :
    validate_task_names ts = none ↔ (taskNames ts).Nodup := by
  unfold validate_task_names
  rw [validateTaskNamesAux_none_iff]
  simp [dictGet]

/-- Appending a task whose name already occurred (in the list or in the
running counts) makes the validation raise the `ValueError` naming that
task. -/
theorem validateTaskNamesAux_append_dup (t : JobTask) :
    ∀ (ts : List JobTask) (counts : List (String × Nat)),
      validateTaskNamesAux counts ts = none →
      (t.task.name ∈ taskNames ts ∨ 1 ≤ (dictGet t.task.name counts).getD 0) →
      validateTaskNamesAux counts (ts ++ [t])
        = some (.valueError ("Duplicate task name " ++ t.task.name ++ " present in the job")) := by
  intro ts
  induction ts with
  | nil =>
    intro counts _ hdup
    rcases hdup with hdup | hdup
    · exact absurd hdup (by simp [taskNames])
    · have hgt : (dictGet t.task.name counts).getD 0 + 1 > 1 := by omega
      simp only [List.nil_append, validateTaskNamesAux, if_pos hgt]
  | cons s rest ih =>
    intro counts hnone hdup
    by_cases h : (dictGet s.task.name counts).getD 0 = 0
    · have hnotgt : ¬ ((dictGet s.task.name counts).getD 0 + 1 > 1) := by omega
      simp only [validateTaskNamesAux, if_neg hnotgt] at hnone
      simp only [List.cons_append, validateTaskNamesAux, if_neg hnotgt]
      apply ih _ hnone
      rcases hdup with hdup | hdup
      · simp only [taskNames, List.map_cons, List.mem_cons] at hdup
        rcases hdup with hdup | hdup
        · right
          rw [hdup, dictGet_dictSet_self]
          simp
        · left; exact hdup
      · right
        by_cases hts : t.task.name = s.task.name
        · rw [hts, dictGet_dictSet_self]; simp
        · rwa [dictGet_dictSet_ne _ _ _ hts]
    · exfalso
      have hgt : (dictGet s.task.name counts).getD 0 + 1 > 1 := by omega
      simp only [validateTaskNamesAux, if_pos hgt] at hnone
      cases hnone

/-! ## Provider chat primitives (`llmsmith/task/textgen/...`)

Each provider's raw reply is modelled with exactly the fields the source
inspects; the reply object itself doubles as the opaque `raw_output` (its
`raw` tag stands for the unmodified provider response).  Request assembly —
option dictionaries, system-prompt insertion, JSON encoding of tool
arguments — happens on the wire side of the provider client and is outside
the modelled fragment; tool-call arguments appear already parsed. -/

/-- Python `str(x)` for the values a tool callable returns. -/
def pyStr : PyObj → String
  | .str s => s
  | .int n => toString n
  | .pylist items => toString items
  | .pynone => "None"

/-- A Gemini `FunctionCall` proto message (`p.function_call`). -/
structure GeminiFunctionCallMsg where
  name : String
  args : List (String × PyObj)
deriving DecidableEq, Repr

/-- A Gemini content part: `function_call` is falsy when unset (`none`);
`text` is falsy when empty. -/
structure GeminiPart where
  function_call : Option GeminiFunctionCallMsg
  text : String
deriving DecidableEq, Repr

inductive GeminiFinishReason where
  | stop
  | other
deriving DecidableEq, Repr

structure GeminiCandidate where
  finish_reason : GeminiFinishReason
  parts : List GeminiPart
deriving DecidableEq, Repr

inductive GeminiBlockReason where
  | safety
  | otherReason
deriving DecidableEq, Repr

/-- A `GenerateContentResponse` as inspected by `BaseGeminiChat.chat`:
`block_reason = none` models the falsy/`BLOCK_REASON_UNSPECIFIED` value. -/
structure GeminiReply where
  block_reason : Option GeminiBlockReason
  candidates : List GeminiCandidate
  raw : String
deriving DecidableEq, Repr

/-- `BaseGeminiChat._block_reason_str`. -/
def geminiBlockReasonStr : GeminiBlockReason → String
  | .safety => "SAFETY_CHECK_FAILED"
  | .otherReason => "OTHER"

/-- `BaseGeminiChat.chat`, as a function of the provider reply: raise on a
blocked prompt, pick the first candidate that stopped naturally, classify it
as a single-entry function-call response (with `text=None`) or as a text
response (raising if no non-empty text part exists). -/
def BaseGeminiChat.chat (reply : GeminiReply) : Except PyExc ChatResponse :=
  match reply.block_reason with
  | some br => .error (.promptBlocked (geminiBlockReasonStr br))
  | none =>
    match reply.candidates.find? (fun c => decide (c.finish_reason = .stop)) with
    | none => .error (.textGenFailed "NO_NATURAL_STOP_POINT")
    | some cand =>
      match cand.parts.findSome? (fun p => p.function_call) with
      | some fc =>
        .ok { text := none, raw_output := reply.raw,
              function_calls := some [(fc.name, { id := none, args := fc.args })] }
      | none =>
        match cand.parts.findSome?
            (fun p => if p.text = "" then none else some p.text) with
        | none => .error (.textGenFailed "NO_TEXT_DATA")
        | some t =>
          .ok { text := some t, raw_output := reply.raw, function_calls := none }

/-- A Groq `tool_call` entry of a choice message (id, function name, parsed
arguments; `json.loads(arguments) if arguments else {}`). -/
structure GroqToolCall where
  id : String
  name : String
  args : List (String × PyObj)
deriving DecidableEq, Repr

/-- A Groq chat-completion choice as inspected by `BaseGroqChat.chat`. -/
structure GroqChoice where
  finish_reason : String
  content : Option String
  tool_calls : List GroqToolCall
deriving DecidableEq, Repr

structure GroqReply where
  choices : List GroqChoice
  raw : String
deriving DecidableEq, Repr

/-- The `TypeError` raised by `textgen/groq.py:102`: the dict comprehension
in the tool-calls branch constructs `FunctionCall(id=..., name=..., args=...)`,
but the `FunctionCall` dataclass in `task/models.py` declares only `id` and
`args`, so the first record constructed raises this exception. -/
def groqFunctionCallTypeError : PyExc :=
  .typeError "FunctionCall got an unexpected keyword argument name"

/-- `BaseGroqChat.chat`, as a function of the provider reply.  A choice that
finished with `tool_calls` wins; constructing its function-call dict raises
the `TypeError` above as soon as there is a record to build (so no
`ChatResponse` carrying function calls is ever produced; with an empty
`tool_calls` list the comprehension builds the empty dict and the choice's
message content is passed through as `text`).  Otherwise the first `stop`
choice's content is the text; otherwise the generation failed. -/
def BaseGroqChat.chat (reply : GroqReply) : Except PyExc ChatResponse :=
  match reply.choices.find? (fun c => c.finish_reason == "tool_calls") with
  | some c =>
    if c.tool_calls.isEmpty then
      .ok { text := c.content, raw_output := reply.raw, function_calls := some [] }
    else
      .error groqFunctionCallTypeError
  | none =>
    match reply.choices.find? (fun c => c.finish_reason == "stop") with
    | none => .error (.textGenFailed "NO_NATURAL_STOP_POINT")
    | some c => .ok { text := c.content, raw_output := reply.raw, function_calls := none }

/-- A Cohere `tool_call` (name plus `parameters`, which may be `None`). -/
structure CohereToolCall where
  name : String
  parameters : Option (List (String × PyObj))
deriving DecidableEq, Repr

/-- A Cohere `NonStreamedChatResponse` as inspected by `BaseCohereChat.chat`
and by the Cohere agent (which reads `chat_history` off the raw reply; the
history entries are opaque here). -/
structure CohereReply where
  finish_reason : String
  text : String
  tool_calls : Option (List CohereToolCall)
  chat_history : List String
  raw : String
deriving DecidableEq, Repr

/-- `BaseCohereChat._block_reason_str`. -/
def cohereBlockReasonStr (finish_reason : String) : String :=
  if finish_reason == "ERROR_TOXIC" then "SAFETY_CHECK_FAILED"
  else if finish_reason == "ERROR_LIMIT" then "LIMIT_EXCEEDED"
  else if finish_reason == "MAX_TOKENS" then "MAX_TOKENS_REACHED"
  else if finish_reason == "USER_CANCEL" then "CANCELLED"
  else "OTHER"

/-- `BaseCohereChat.chat`, as a function of the provider reply: any finish
reason other than `COMPLETE` raises; otherwise the reply text is passed
through as `text` and a falsy (absent or empty) `tool_calls` yields
`function_calls = None`. -/
def BaseCohereChat.chat (reply : CohereReply) : Except PyExc ChatResponse :=
  if reply.finish_reason ≠ "COMPLETE" then
    .error (.textGenFailed (cohereBlockReasonStr reply.finish_reason))
  else
    let function_calls : Option (List (String × FunctionCall)) :=
      match reply.tool_calls with
      | none => none
      | some tcs =>
        if tcs.isEmpty then none
        else some (tcs.map fun tc =>
          (tc.name, ({ id := none, args := tc.parameters.getD [] } : FunctionCall)))
    .ok { text := some reply.text, raw_output := reply.raw,
          function_calls := function_calls }

/-! ## Function-calling agents (`llmsmith/agent/function/...`)

Each agent is modelled as an interpreter over an oracle standing for the
chat model: the oracle maps the conversation state the agent would send to
the provider's raw reply, and the agent's classification goes through the
chat primitive modelled above.  The returned `AgentTrace` records the
outcome together with the number of model invocations made and the tool
callables invoked, in order. -/

/-- A local tool callable: the `**args` keyword binding is abstracted to a
total function on the parsed argument mapping. -/
def ToolCallable : Type := List (String × PyObj) → PyObj

/-- Outcome of one agent `execute`: the returned value or raised exception,
the number of chat-model invocations, and the names of the tool callables
invoked (in invocation order). -/
structure AgentTrace where
  result : Except PyExc (TaskOutput (Option String))
  model_calls : Nat
  tool_invocations : List String
deriving Repr

/-- The `ValueError` raised by every `execute` on non-string content. -/
def contentTypeError : PyExc := .valueError "task_input.content should be of type str"

/-- A message in the Gemini agent's rolling `messages_payload`. -/
inductive GeminiMsg where
  | user (content : String)
  | functionCallPart (name : String) (args : List (String × PyObj))
  | functionResponsePart (name : String) (result : PyObj)
deriving DecidableEq, Repr

/-- The Gemini agent's per-turn tool dispatch: for each requested call (in
order), look the callable up by name (a missing name is a `KeyError`,
aborting execution), invoke it, and append the function-call and
function-response messages to the payload. -/
def geminiDispatch (tool_callables : List (String × ToolCallable)) :
    List (String × FunctionCall) → List GeminiMsg →
      List GeminiMsg × List String × Option PyExc
  | [], payload => (payload, [], none)
  | (func_name, func) :: rest, payload =>
    match dictGet func_name tool_callables with
    | none => (payload, [], some (.keyError func_name))
    | some callable =>
      let func_output := callable func.args
      let payload2 := payload ++
        [.functionCallPart func_name func.args,
         .functionResponsePart func_name func_output]
      let step := geminiDispatch tool_callables rest payload2
      (step.1, func_name :: step.2.1, step.2.2)

/-- The turn loop of `GeminiFunctionAgent.execute`. -/
def geminiAgentLoop (oracle : List GeminiMsg → GeminiReply)
    (tool_callables : List (String × ToolCallable)) :
    Nat → List GeminiMsg → AgentTrace
  | 0, _ => ⟨.error .maxTurnsReached, 0, []⟩
  | Nat.succ turnsLeft, payload =>
    match BaseGeminiChat.chat (oracle payload) with
    | .error e => ⟨.error e, 1, []⟩
    | .ok resp =>
      let func_calls := resp.function_calls.getD []
      if func_calls.isEmpty then
        ⟨.ok ⟨resp.text, resp.raw_output⟩, 1, []⟩
      else
        match geminiDispatch tool_callables func_calls payload with
        | (_, invoked, some e) => ⟨.error e, 1, invoked⟩
        | (payload2, invoked, none) =>
          let rest := geminiAgentLoop oracle tool_callables turnsLeft payload2
          ⟨rest.result, rest.model_calls + 1, invoked ++ rest.tool_invocations⟩

/-- `GeminiFunctionAgent.execute`: validate the input content, seed the
payload with the user message, and run up to `max_turns` turns. -/
def GeminiFunctionAgent.execute (oracle : List GeminiMsg → GeminiReply)
    (tool_callables : List (String × ToolCallable)) (max_turns : Nat)
    (task_input : TaskInput PyObj) : AgentTrace :=
  match task_input.content with
  | .str content => geminiAgentLoop oracle tool_callables max_turns [.user content]
  | _ => ⟨.error contentTypeError, 0, []⟩

/-- A message in the Groq agent's rolling `messages_payload` (the assistant
tool-calls and tool-result shapes are the ones the source would append; with
the faithful chat primitive the tool-call turn dies before building them, so
the payload only ever holds `user` messages). -/
inductive GroqMsg where
  | user (content : String)
  | assistantToolCalls (calls : List (String × String × List (String × PyObj)))
  | tool (tool_call_id : String) (name : String) (content : String)
deriving DecidableEq, Repr

/-- The turn loop of `GroqFunctionAgent.execute`.  An exception from the
chat primitive (in particular `groqFunctionCallTypeError` from the
tool-calls branch) propagates directly, so the function-call handling below
the exit condition is reachable only with an empty function-call dict —
which the exit condition already consumed.  Were the loop ever handed a
non-empty dict of `task/models.py` `FunctionCall` records, its very first
step — building the assistant message from `func.name` — would raise
`AttributeError`, before any tool callable runs; the dead branch is
modelled as that exception.  (`tool_callables` is the registry the agent
constructor builds; the loop no longer reaches it.) -/
def groqAgentLoop (oracle : List GroqMsg → GroqReply)
    (_tool_callables : List (String × ToolCallable)) :
    Nat → List GroqMsg → AgentTrace
  | 0, _ => ⟨.error .maxTurnsReached, 0, []⟩
  | Nat.succ _, payload =>
    match BaseGroqChat.chat (oracle payload) with
    | .error e => ⟨.error e, 1, []⟩
    | .ok resp =>
      let func_calls := resp.function_calls.getD []
      if func_calls.isEmpty then
        ⟨.ok ⟨resp.text, resp.raw_output⟩, 1, []⟩
      else
        ⟨.error (.attributeError "FunctionCall object has no attribute name"), 1, []⟩

/-- `GroqFunctionAgent.execute`. -/
def GroqFunctionAgent.execute (oracle : List GroqMsg → GroqReply)
    (tool_callables : List (String × ToolCallable)) (max_turns : Nat)
    (task_input : TaskInput PyObj) : AgentTrace :=
  match task_input.content with
  | .str content => groqAgentLoop oracle tool_callables max_turns [.user content]
  | _ => ⟨.error contentTypeError, 0, []⟩

/-- One entry of the Cohere agent's accumulated `func_results`
(`{"call": ToolCall(name, parameters), "outputs": [{"answer": ...}]}`). -/
structure CohereToolResult where
  call_name : String
  parameters : List (String × PyObj)
  answer : PyObj
deriving DecidableEq, Repr

/-- The Cohere agent's per-turn tool dispatch, appending to the accumulated
tool results. -/
def cohereDispatch (tool_callables : List (String × ToolCallable)) :
    List (String × FunctionCall) → List CohereToolResult →
      List CohereToolResult × List String × Option PyExc
  | [], acc => (acc, [], none)
  | (func_name, func) :: rest, acc =>
    match dictGet func_name tool_callables with
    | none => (acc, [], some (.keyError func_name))
    | some callable =>
      let func_output := callable func.args
      let acc2 := acc ++ [⟨func_name, func.args, func_output⟩]
      let step := cohereDispatch tool_callables rest acc2
      (step.1, func_name :: step.2.1, step.2.2)

/-- The turn loop of `CohereFunctionAgent.execute`.  The chat history is
taken from the raw reply after each call; the tool results accumulate across
turns (the source never resets `func_results`). -/
def cohereAgentLoop (oracle : List String → List CohereToolResult → CohereReply)
    (tool_callables : List (String × ToolCallable)) :
    Nat → List String → List CohereToolResult → AgentTrace
  | 0, _, _ => ⟨.error .maxTurnsReached, 0, []⟩
  | Nat.succ turnsLeft, chat_hist, func_results =>
    let reply := oracle chat_hist func_results
    match BaseCohereChat.chat reply with
    | .error e => ⟨.error e, 1, []⟩
    | .ok resp =>
      let func_calls := resp.function_calls.getD []
      if func_calls.isEmpty then
        ⟨.ok ⟨resp.text, resp.raw_output⟩, 1, []⟩
      else
        match cohereDispatch tool_callables func_calls func_results with
        | (_, invoked, some e) => ⟨.error e, 1, invoked⟩
        | (func_results2, invoked, none) =>
          let rest := cohereAgentLoop oracle tool_callables turnsLeft
            reply.chat_history func_results2
          ⟨rest.result, rest.model_calls + 1, invoked ++ rest.tool_invocations⟩

/-- `CohereFunctionAgent.execute`: validate, then loop starting from an
empty chat history and no tool results (the fixed user message is carried by
the oracle). -/
def CohereFunctionAgent.execute (oracle : List String → List CohereToolResult → CohereReply)
    (tool_callables : List (String × ToolCallable)) (max_turns : Nat)
    (task_input : TaskInput PyObj) : AgentTrace :=
  match task_input.content with
  | .str _ => cohereAgentLoop oracle tool_callables max_turns [] []
  | _ => ⟨.error contentTypeError, 0, []⟩

/-! ### OpenAI assistant agent -/

inductive OpenAIRunStatus where
  | completed
  | requires_action
  | failed
  | cancelled
  | expired
  | otherStatus
deriving DecidableEq, Repr

/-- One requested tool call of a `requires_action` run
(`run.required_action.submit_tool_outputs.tool_calls`). -/
structure OpenAIToolCall where
  id : String
  name : String
  args : List (String × PyObj)
deriving DecidableEq, Repr

/-- An OpenAI `Run` as inspected by the agent; `text` is the latest
assistant message read via `messages.list` when the run completed (that
listing is an API read, not a model invocation). -/
structure OpenAIRun where
  status : OpenAIRunStatus
  tool_calls : List OpenAIToolCall
  text : Option String
  raw : String
deriving DecidableEq, Repr

/-- The exception raised by the error branch of the OpenAI agent loop: the
source computes the failure reason via `self.__failure_reason(run.status)`,
passing the status string where the helper expects the run object; the
helper's first line dereferences `.status` on it, so evaluating the
`TextGenFailedException` constructor's argument raises `AttributeError`
before that exception exists. -/
def openaiStatusAttributeError : PyExc :=
  .attributeError "str object has no attribute status"

/-- Dispatch of one `requires_action` batch: invoke each requested tool in
provider-listed order and collect the `{tool_call_id, output}` records. -/
def openaiDispatch (tool_callables : List (String × ToolCallable)) :
    List OpenAIToolCall → List (String × String) × List String × Option PyExc
  | [] => ([], [], none)
  | tc :: rest =>
    match dictGet tc.name tool_callables with
    | none => ([], [], some (.keyError tc.name))
    | some callable =>
      let func_output := callable tc.args
      let step := openaiDispatch tool_callables rest
      ((tc.id, pyStr func_output) :: step.1, tc.name :: step.2.1, step.2.2)

/-- The turn loop of `OpenAIFunctionAgent.execute`.  The oracle maps the
tool-output batches submitted so far to the current run state; submitting a
batch (`submit_tool_outputs_and_poll`) makes the model continue the run, so
it counts as a model invocation. -/
def openaiAgentLoop (oracle : List (List (String × String)) → OpenAIRun)
    (tool_callables : List (String × ToolCallable)) :
    Nat → OpenAIRun → List (List (String × String)) → AgentTrace
  | 0, _, _ => ⟨.error .maxTurnsReached, 0, []⟩
  | Nat.succ turnsLeft, run, submitted =>
    match run.status with
    | .completed => ⟨.ok ⟨run.text, run.raw⟩, 0, []⟩
    | .requires_action =>
      match openaiDispatch tool_callables run.tool_calls with
      | (_, invoked, some e) => ⟨.error e, 0, invoked⟩
      | (outs, invoked, none) =>
        let submitted2 := submitted ++ [outs]
        let run2 := oracle submitted2
        let rest := openaiAgentLoop oracle tool_callables turnsLeft run2 submitted2
        ⟨rest.result, rest.model_calls + 1, invoked ++ rest.tool_invocations⟩
    | _ => ⟨.error openaiStatusAttributeError, 0, []⟩

/-- `OpenAIFunctionAgent.execute`: validate, create the thread and the
initial run (`create_and_poll` — the first model invocation, so the trace
counts it on top of the loop's), then loop.  The user content lives in the
provider-side thread the oracle closes over. -/
def OpenAIFunctionAgent.execute (oracle : List (List (String × String)) → OpenAIRun)
    (tool_callables : List (String × ToolCallable)) (max_turns : Nat)
    (task_input : TaskInput PyObj) : AgentTrace :=
  match task_input.content with
  | .str _ =>
    let run0 := oracle []
    let t := openaiAgentLoop oracle tool_callables max_turns run0 []
    ⟨t.result, t.model_calls + 1, t.tool_invocations⟩
  | _ => ⟨.error contentTypeError, 0, []⟩

/-! ## Text-generation tasks (validation-before-call shape, for claim C8)

Each task's `execute` validates that the input content is a string before
any provider call; the second component of the result counts the provider
calls made. -/

/-- `GeminiTextGenTask.execute`. -/
def GeminiTextGenTask.execute (oracle : List GeminiMsg → GeminiReply)
    (task_input : TaskInput PyObj) :
    Except PyExc (TaskOutput (Option String)) × Nat :=
  match task_input.content with
  | .str content =>
    match BaseGeminiChat.chat (oracle [.user content]) with
    | .error e => (.error e, 1)
    | .ok resp => (.ok ⟨resp.text, resp.raw_output⟩, 1)
  | _ => (.error contentTypeError, 0)

/-- `GroqTextGenTask.execute`. -/
def GroqTextGenTask.execute (oracle : List GroqMsg → GroqReply)
    (task_input : TaskInput PyObj) :
    Except PyExc (TaskOutput (Option String)) × Nat :=
  match task_input.content with
  | .str content =>
    match BaseGroqChat.chat (oracle [.user content]) with
    | .error e => (.error e, 1)
    | .ok resp => (.ok ⟨resp.text, resp.raw_output⟩, 1)
  | _ => (.error contentTypeError, 0)

/-- `CohereTextGenTask.execute` (a single `chat(message=content)` call). -/
def CohereTextGenTask.execute (oracle : String → CohereReply)
    (task_input : TaskInput PyObj) :
    Except PyExc (TaskOutput (Option String)) × Nat :=
  match task_input.content with
  | .str content =>
    match BaseCohereChat.chat (oracle content) with
    | .error e => (.error e, 1)
    | .ok resp => (.ok ⟨resp.text, resp.raw_output⟩, 1)
  | _ => (.error contentTypeError, 0)

/-- `OpenAITextGenTask.execute`.  The OpenAI chat primitive's own
classification is not the subject of any claim; the oracle returns the
`ChatResponse` it produces for the single user message. -/
def OpenAITextGenTask.execute (oracle : String → ChatResponse)
    (task_input : TaskInput PyObj) :
    Except PyExc (TaskOutput (Option String)) × Nat :=
  match task_input.content with
  | .str content =>
    let resp := oracle content
    (.ok ⟨resp.text, resp.raw_output⟩, 1)
  | _ => (.error contentTypeError, 0)

/-- `ClaudeTextGenTask.execute`: one `messages.create` call, whose reply is
the text of the first content block plus the raw reply. -/
def ClaudeTextGenTask.execute (oracle : String → String × String)
    (task_input : TaskInput PyObj) :
    Except PyExc (TaskOutput String) × Nat :=
  match task_input.content with
  | .str content =>
    let reply := oracle content
    (.ok ⟨reply.1, reply.2⟩, 1)
  | _ => (.error contentTypeError, 0)

/-! ## Demonstration values used by concrete instances -/

/-- A task producing a fixed output. -/
def constTask (name out : String) : MTask := ⟨name, fun _ => .ok ⟨out, "raw"⟩⟩

/-- A task echoing its resolved input as its output. -/
def echoTask (name : String) : MTask := ⟨name, fun inp => .ok ⟨inp.content, "raw"⟩⟩

/-- A task that always raises. -/
def failTask (name msg : String) : MTask := ⟨name, fun _ => .error (.taskFailure msg)⟩

/-- A two-task job: `a` produces `AOUT` from the root input, `b` echoes
`{{a.output}}`. -/
def demoJob : SequentialJob :=
  ((SequentialJob.init.add_task (constTask "a" "AOUT") rootPlaceholder).1.add_task
    (echoTask "b") (outputPlaceholder "a")).1

/-- A two-task job whose second task raises. -/
def failJob : SequentialJob :=
  ((SequentialJob.init.add_task (constTask "a" "AOUT") rootPlaceholder).1.add_task
    (failTask "b" "boom") rootPlaceholder).1

/-- A job built by registering two tasks with the same name `t` (the second
registration raises, but the duplicate stays in the list). -/
def dupJob : SequentialJob :=
  ((SequentialJob.init.add_task (constTask "t" "AOUT") rootPlaceholder).1.add_task
    (echoTask "t") (outputPlaceholder "t")).1

/-- A memory whose recorded input for `a` itself contains the placeholder
`{{a.output}}` (distinguishes the input pass from the output pass). -/
def demoMemory : JobMemory := ⟨[("a", ⟨outputPlaceholder "a"⟩)], [("a", ⟨"AOUT", "raw"⟩)]⟩

/-- `{{root}}|{{root}}|{{a.input}}|{{b.output}}`. -/
def demoTemplate : String :=
  rootPlaceholder ++ "|" ++ rootPlaceholder ++ "|" ++ inputPlaceholder "a"
    ++ "|" ++ outputPlaceholder "b"

/-! ## Claims -/

/-- Claim C6: `get_task_input`/`get_task_output` return `None` (not an
error) for absent keys, and `add_task_input`/`add_task_output` are
unconditional upserts: the new value replaces an existing one under the same
key and every other key is untouched; nothing raises. -/
theorem claim_C6 :
    (∀ (m : JobMemory) (k : String),
        k ∉ m.inputs.map Prod.fst → m.get_task_input k = none)
  ∧ (∀ (m : JobMemory) (k : String),
        k ∉ m.outputs.map Prod.fst → m.get_task_output k = none)
  ∧ (∀ (m : JobMemory) (k : String) (v : TaskInput String),
        (m.add_task_input k v).get_task_input k = some v)
  ∧ (∀ (m : JobMemory) (k k2 : String) (v : TaskInput String), k2 ≠ k →
        (m.add_task_input k v).get_task_input k2 = m.get_task_input k2)
  ∧ (∀ (m : JobMemory) (k : String) (v : TaskOutput String),
        (m.add_task_output k v).get_task_output k = some v)
  ∧ (∀ (m : JobMemory) (k k2 : String) (v : TaskOutput String), k2 ≠ k →
        (m.add_task_output k v).get_task_output k2 = m.get_task_output k2) := by
  refine ⟨?_, ?_, ?_, ?_, ?_, ?_⟩
  · intro m k h
    exact dictGet_eq_none_of_not_mem k m.inputs h
  · intro m k h
    exact dictGet_eq_none_of_not_mem k m.outputs h
  · intro m k v
    exact dictGet_dictSet_self k v m.inputs
  · intro m k k2 v h
    exact dictGet_dictSet_ne k k2 v h m.inputs
  · intro m k v
    exact dictGet_dictSet_self k v m.outputs
  · intro m k k2 v h
    exact dictGet_dictSet_ne k k2 v h m.outputs

/-- Witness for C6 at concrete inputs: a missing key reads back `None`, an
overwrite replaces the value, other keys are unaffected. -/
theorem claim_C6_witness :
    JobMemory.init.get_task_input "a" = none
  ∧ ((JobMemory.init.add_task_input "a" ⟨"x"⟩).add_task_input "a" ⟨"y"⟩).get_task_input "a"
      = some ⟨"y"⟩
  ∧ (JobMemory.init.add_task_input "a" ⟨"x"⟩).get_task_input "b"
      = JobMemory.init.get_task_input "b" :=
  ⟨claim_C6.1 JobMemory.init "a" (by simp [JobMemory.init]),
   claim_C6.2.2.1 (JobMemory.init.add_task_input "a" ⟨"x"⟩) "a" ⟨"y"⟩,
   claim_C6.2.2.2.1 JobMemory.init "a" "b" ⟨"x"⟩ (by decide)⟩

/-- Claim C5: registering a task whose name duplicates one already in the
same job raises the duplicate-name `ValueError`; registering the same name
into two different job instances succeeds in both, each job's task list and
memory being determined by its own state alone. -/
theorem claim_C5 :
    (∀ (job : SequentialJob) (task : MTask) (tmpl : String),
        task.name ∈ taskNames job.tasks →
        validate_task_names job.tasks = none →
        (job.add_task task tmpl).2
          = some (.valueError ("Duplicate task name " ++ task.name ++ " present in the job")))
  ∧ (∀ (j1 j2 : SequentialJob) (t1 t2 : MTask) (tmpl1 tmpl2 : String),
        t1.name = t2.name →
        (taskNames j1.tasks).Nodup → t1.name ∉ taskNames j1.tasks →
        (taskNames j2.tasks).Nodup → t2.name ∉ taskNames j2.tasks →
        (j1.add_task t1 tmpl1).2 = none
      ∧ (j2.add_task t2 tmpl2).2 = none
      ∧ (j1.add_task t1 tmpl1).1.tasks = j1.tasks ++ [⟨t1, tmpl1⟩]
      ∧ (j1.add_task t1 tmpl1).1.memory = j1.memory
      ∧ (j2.add_task t2 tmpl2).1.tasks = j2.tasks ++ [⟨t2, tmpl2⟩]
      ∧ (j2.add_task t2 tmpl2).1.memory = j2.memory) := by
  constructor
  · intro job task tmpl hmem hok
    simp only [SequentialJob.add_task]
    exact validateTaskNamesAux_append_dup ⟨task, tmpl⟩ job.tasks [] hok (Or.inl hmem)
  · intro j1 j2 t1 t2 tmpl1 tmpl2 _ hnd1 hni1 hnd2 hni2
    have hval : ∀ (j : SequentialJob) (t : MTask) (tmpl : String),
        (taskNames j.tasks).Nodup → t.name ∉ taskNames j.tasks →
        (j.add_task t tmpl).2 = none := by
      intro j t tmpl hnd hni
      simp only [SequentialJob.add_task]
      rw [validate_task_names_none_iff]
      have : taskNames (j.tasks ++ [⟨t, tmpl⟩]) = taskNames j.tasks ++ [t.name] := by
        simp [taskNames]
      rw [this, List.nodup_append]
      refine ⟨hnd, List.nodup_singleton _, ?_⟩
      intro x hx hx2
      simp only [List.mem_singleton] at hx2
      exact hni (hx2 ▸ hx)
    exact ⟨hval j1 t1 tmpl1 hnd1 hni1, hval j2 t2 tmpl2 hnd2 hni2,
      rfl, rfl, rfl, rfl⟩

/-- Witness for C5 at concrete inputs: a duplicate add on one job raises,
while a fresh add on another job with the same name succeeds. -/
theorem claim_C5_witness :
    ((SequentialJob.init.add_task (constTask "t" "AOUT") rootPlaceholder).1.add_task
        (echoTask "t") rootPlaceholder).2
      = some (.valueError "Duplicate task name t present in the job")
  ∧ (SequentialJob.init.add_task (echoTask "t") rootPlaceholder).2 = none := by
  constructor
  · have h := claim_C5.1
      (SequentialJob.init.add_task (constTask "t" "AOUT") rootPlaceholder).1
      (echoTask "t") rootPlaceholder (by decide) (by decide)
    exact h
  · exact (claim_C5.2 SequentialJob.init SequentialJob.init
      (echoTask "t") (echoTask "t") rootPlaceholder rootPlaceholder rfl
      (by decide) (by decide) (by decide) (by decide)).1

/-- Claim C10: `add_task` appends the wrapped task before validating, so
when the duplicate-name `ValueError` is raised the job already holds the
duplicate; the duplicate remains in the task list, and running such a job
executes both same-named tasks in order (concretely, the second task sees
the first task's output in memory and the final recorded output under the
shared name is the second task's). -/
theorem claim_C10 :
    (∀ (job : SequentialJob) (task : MTask) (tmpl : String),
        (job.add_task task tmpl).1.tasks = job.tasks ++ [⟨task, tmpl⟩])
  ∧ (∀ (job : SequentialJob) (task : MTask) (tmpl : String),
        task.name ∈ taskNames job.tasks →
        validate_task_names job.tasks = none →
        ((job.add_task task tmpl).2).isSome
      ∧ (job.add_task task tmpl).1.tasks = job.tasks ++ [⟨task, tmpl⟩])
  ∧ ((dupJob.run "Q").2 = none
      ∧ (dupJob.run "Q").1.get_task_output "t" = some ⟨"AOUT", "raw"⟩
      ∧ (dupJob.run "Q").1.get_task_input "t" = some ⟨"AOUT"⟩) := by
  refine ⟨fun job task tmpl => rfl, ?_, by decide⟩
  intro job task tmpl hmem hok
  refine ⟨?_, rfl⟩
  simp only [SequentialJob.add_task, validate_task_names]
  rw [validateTaskNamesAux_append_dup ⟨task, tmpl⟩ job.tasks [] hok (Or.inl hmem)]
  rfl

/-- Witness for C10: the failed duplicate registration leaves both
same-named tasks in `dupJob`, and the hypothesis-bearing part applies to it
concretely. -/
theorem claim_C10_witness :
    dupJob.tasks.length = 2
  ∧ (((SequentialJob.init.add_task (constTask "t" "AOUT") rootPlaceholder).1.add_task
        (echoTask "t") rootPlaceholder).2).isSome := by
  constructor
  · rfl
  · exact (claim_C10.2.1
      (SequentialJob.init.add_task (constTask "t" "AOUT") rootPlaceholder).1
      (echoTask "t") rootPlaceholder (by decide) (by decide)).1

/-- A pattern that does not occur in a string is left verbatim by `pyReplace`. -/
theorem pyReplace_absent (s p r : String) (h : ¬ p.data <:+: s.data) :
    pyReplace s p r = s := by
  unfold pyReplace
  rw [replaceAll_absent r.data h]

theorem resolveTemplateChain (t root : String) (mem : JobMemory) :
    resolveTemplate t root mem
      = mem.outputs.foldl (fun acc kv => pyReplace acc (outputPlaceholder kv.1) kv.2.content)
          (mem.inputs.foldl (fun acc kv => pyReplace acc (inputPlaceholder kv.1) kv.2.content)
            (pyReplace t rootPlaceholder root)) := rfl

theorem foldl_fixed {β : Type} (f : String → β → String) (t : String) :
    ∀ l : List β, (∀ b ∈ l, f t b = t) → l.foldl f t = t := by
  intro l
  induction l with
  | nil => intro _; rfl
  | cons b rest ih =>
    intro h
    simp only [List.foldl_cons, h b (List.mem_cons_self b rest)]
    exact ih fun x hx => h x (List.mem_cons_of_mem b hx)

/-- Claim C2: placeholder resolution is literal substring replacement in the
order root, then recorded inputs, then recorded outputs; each pass replaces
every occurrence of its pattern; a placeholder whose key is absent from
memory is left verbatim and nothing raises.  The last conjunct shows the
order and the multi-occurrence behaviour on a concrete template: both
`{{root}}` occurrences are replaced, the resolved input-pass result is
itself rewritten by the later output pass, and the `{{b.output}}`
placeholder (no such key) survives verbatim. -/
theorem claim_C2 :
    (∀ (t root : String) (mem : JobMemory),
        resolveTemplate t root mem
          = mem.outputs.foldl (fun acc kv => pyReplace acc (outputPlaceholder kv.1) kv.2.content)
              (mem.inputs.foldl (fun acc kv => pyReplace acc (inputPlaceholder kv.1) kv.2.content)
                (pyReplace t rootPlaceholder root)))
  ∧ (∀ (p r : List Char), p ≠ [] →
       ∀ a b, (∀ a₂ ∈ a.tails, a₂ ≠ [] → ¬ p <+: (a₂ ++ p ++ b)) →
        replaceAll (a ++ p ++ b) p r = a ++ r ++ replaceAll b p r)
  ∧ (∀ (t root : String) (mem : JobMemory),
        ¬ rootPlaceholder.data <:+: t.data →
        (∀ kv ∈ mem.inputs, ¬ (inputPlaceholder kv.1).data <:+: t.data) →
        (∀ kv ∈ mem.outputs, ¬ (outputPlaceholder kv.1).data <:+: t.data) →
        resolveTemplate t root mem = t)
  ∧ resolveTemplate demoTemplate "X" demoMemory = "X|X|AOUT|" ++ outputPlaceholder "b" := by
  refine ⟨fun t root mem => resolveTemplateChain t root mem, ?_, ?_, by decide⟩
  · intro p r hp a b h
    exact replaceAll_append_of_first r hp a b h
  · intro t root mem hroot hins houts
    rw [resolveTemplateChain t root mem,
      pyReplace_absent t rootPlaceholder root hroot,
      foldl_fixed (fun acc kv => pyReplace acc (inputPlaceholder kv.1) kv.2.content) t mem.inputs
        (fun kv hkv => pyReplace_absent t (inputPlaceholder kv.1) kv.2.content (hins kv hkv)),
      foldl_fixed (fun acc kv => pyReplace acc (outputPlaceholder kv.1) kv.2.content) t mem.outputs
        (fun kv hkv => pyReplace_absent t (outputPlaceholder kv.1) kv.2.content (houts kv hkv))]

/-- Witness for C2 at concrete inputs: the splitting property replaces an
interior occurrence, and a template with no resolvable or known placeholder
is returned verbatim. -/
theorem claim_C2_witness :
    replaceAll ("XY".data ++ "ab".data ++ "Zab".data) "ab".data "r".data
      = "XY".data ++ "r".data ++ replaceAll "Zab".data "ab".data "r".data
  ∧ resolveTemplate "plain text" "X" demoMemory = "plain text" := by
  constructor
  · exact claim_C2.2.1 "ab".data "r".data (by decide) "XY".data "Zab".data (by decide)
  · exact claim_C2.2.2.1 "plain text" "X" demoMemory (by decide) (by decide) (by decide)

/-- Claim C1: in a sequential run with uniquely named tasks, the `N`-th
task's recorded input is its template resolved against the memory exactly as
it stands after tasks `1..N-1` completed (their resolved inputs and outputs
already written), so no template observes a later or same task's
input/output. -/
theorem claim_C1 (job : SequentialJob) (user_input : String) (N : Nat)
    (hN : N < job.tasks.length)
    (hnodup : (taskNames job.tasks).Nodup)
    (hpre : (runTasksFrom user_input job.memory (job.tasks.take N)).2 = none) :
    ((job.run user_input).1).get_task_input (job.tasks.get ⟨N, hN⟩).task.name
      = some ⟨(job.tasks.get ⟨N, hN⟩).replace_input_template_placeholders user_input
                ((runTasksFrom user_input job.memory (job.tasks.take N)).1)⟩ :=
  sequentialRun_resolves_after_done user_input job.tasks job.memory N hN hnodup hpre

/-- Witness for C1: in `demoJob`, task `b`'s recorded input is its template
resolved against the memory left by task `a` — the string `AOUT`. -/
theorem claim_C1_witness :
    ((demoJob.run "Q").1).get_task_input "b" = some ⟨"AOUT"⟩ := by
  have h := claim_C1 demoJob "Q" 1 (by decide) (by decide) (by decide)
  exact h.trans (by decide)

/-- Claim C9: if tasks before index `N` succeed and task `N` raises `e`, the
run returns `e` with no rollback: the final memory is exactly the
prefix memory extended with task `N`'s resolved input (so nothing after task
`N` executed), and every prefix task's output is still present. -/
theorem claim_C9 (job : SequentialJob) (user_input : String) (N : Nat)
    (hN : N < job.tasks.length) (e : PyExc)
    (hpre : (runTasksFrom user_input job.memory (job.tasks.take N)).2 = none)
    (herr : (job.tasks.get ⟨N, hN⟩).task.run
        ⟨(job.tasks.get ⟨N, hN⟩).replace_input_template_placeholders user_input
            ((runTasksFrom user_input job.memory (job.tasks.take N)).1)⟩ = .error e) :
    job.run user_input
      = (((runTasksFrom user_input job.memory (job.tasks.take N)).1).add_task_input
           (job.tasks.get ⟨N, hN⟩).task.name
           ⟨(job.tasks.get ⟨N, hN⟩).replace_input_template_placeholders user_input
              ((runTasksFrom user_input job.memory (job.tasks.take N)).1)⟩,
         some e)
  ∧ ∀ t ∈ job.tasks.take N,
      (((job.run user_input).1).get_task_output t.task.name).isSome := by
  have h1 := sequentialRun_error_state user_input job.tasks job.memory N hN e hpre herr
  refine ⟨h1, ?_⟩
  intro t ht
  have h2 := runTasksFrom_outputs_recorded user_input (job.tasks.take N) job.memory hpre t ht
  have h3 : ((job.run user_input).1).get_task_output t.task.name
      = dictGet t.task.name ((runTasksFrom user_input job.memory (job.tasks.take N)).1).outputs := by
    rw [show job.run user_input = _ from h1]
    rfl
  rw [h3]
  exact h2

/-- Witness for C9: in `failJob`, task `b` raises; the run propagates the
exception, keeps task `a`'s output, and records `b`'s resolved input. -/
theorem claim_C9_witness :
    (failJob.run "Q").2 = some (.taskFailure "boom")
  ∧ ((failJob.run "Q").1.get_task_output "a").isSome
  ∧ (failJob.run "Q").1.get_task_input "b" = some ⟨"Q"⟩ := by
  have h := claim_C9 failJob "Q" 1 (by decide) (.taskFailure "boom") (by decide) rfl
  refine ⟨?_, ?_, ?_⟩
  · rw [h.1]
  · rw [h.1]
    decide
  · rw [h.1]
    decide

/-! ### Demonstration oracles for the agent claims -/

/-- A Gemini model that always answers with plain text. -/
def geminiTextOracle : List GeminiMsg → GeminiReply :=
  fun _ => ⟨none, [⟨.stop, [⟨none, "hello"⟩]⟩], "raw"⟩

/-- A Gemini model that always requests the tool `f`. -/
def geminiToolOracle : List GeminiMsg → GeminiReply :=
  fun _ => ⟨none, [⟨.stop, [⟨some ⟨"f", []⟩, ""⟩]⟩], "raw"⟩

/-- A Groq model that always answers with plain text. -/
def groqTextOracle : List GroqMsg → GroqReply :=
  fun _ => ⟨[⟨"stop", some "hello", []⟩], "raw"⟩

/-- A Groq model that always requests the tool `f` (with empty message
content, as in the repository's own Groq tests). -/
def groqToolOracle : List GroqMsg → GroqReply :=
  fun _ => ⟨[⟨"tool_calls", some "", [⟨"id1", "f", []⟩]⟩], "raw"⟩

/-- A Cohere model that always answers with plain text. -/
def cohereTextOracle : List String → List CohereToolResult → CohereReply :=
  fun _ _ => ⟨"COMPLETE", "hello", none, [], "raw"⟩

/-- A completed Cohere reply that carries a tool call together with its
(empty) text. -/
def cohereToolReply : CohereReply := ⟨"COMPLETE", "", some [⟨"f", none⟩], [], "raw"⟩

/-- A Cohere model that always requests the tool `f`. -/
def cohereToolOracle : List String → List CohereToolResult → CohereReply :=
  fun _ _ => cohereToolReply

/-- An OpenAI run oracle whose run completes immediately. -/
def openaiTextOracle : List (List (String × String)) → OpenAIRun :=
  fun _ => ⟨.completed, [], some "hello", "raw"⟩

/-- An OpenAI run oracle that always requires the tool `f`. -/
def openaiToolOracle : List (List (String × String)) → OpenAIRun :=
  fun _ => ⟨.requires_action, [⟨"id1", "f", []⟩], none, "raw"⟩

/-- An OpenAI chat-primitive oracle answering with plain text. -/
def openaiTextgenOracle : String → ChatResponse := fun _ => ⟨some "hello", "raw", none⟩

/-- A Claude oracle answering with plain text. -/
def claudeOracle : String → String × String := fun _ => ("hello", "raw")

/-- A registry holding the single tool `f`. -/
def demoCallables : List (String × ToolCallable) := [("f", fun _ => .str "out")]

/-- Claim C7: when the model's first response carries no function calls,
every agent's `execute` returns that response's text (with the raw reply)
after exactly one model invocation, short-circuiting the remaining turns,
and no tool callable is invoked. -/
theorem claim_C7 :
    (∀ (oracle : List GeminiMsg → GeminiReply) (tcs : List (String × ToolCallable))
        (max_turns : Nat) (content : String) (resp : ChatResponse),
        0 < max_turns →
        BaseGeminiChat.chat (oracle [.user content]) = .ok resp →
        resp.function_calls.getD [] = [] →
        GeminiFunctionAgent.execute oracle tcs max_turns ⟨.str content⟩
          = ⟨.ok ⟨resp.text, resp.raw_output⟩, 1, []⟩)
  ∧ (∀ (oracle : List GroqMsg → GroqReply) (tcs : List (String × ToolCallable))
        (max_turns : Nat) (content : String) (resp : ChatResponse),
        0 < max_turns →
        BaseGroqChat.chat (oracle [.user content]) = .ok resp →
        resp.function_calls.getD [] = [] →
        GroqFunctionAgent.execute oracle tcs max_turns ⟨.str content⟩
          = ⟨.ok ⟨resp.text, resp.raw_output⟩, 1, []⟩)
  ∧ (∀ (oracle : List String → List CohereToolResult → CohereReply)
        (tcs : List (String × ToolCallable))
        (max_turns : Nat) (content : String) (resp : ChatResponse),
        0 < max_turns →
        BaseCohereChat.chat (oracle [] []) = .ok resp →
        resp.function_calls.getD [] = [] →
        CohereFunctionAgent.execute oracle tcs max_turns ⟨.str content⟩
          = ⟨.ok ⟨resp.text, resp.raw_output⟩, 1, []⟩)
  ∧ (∀ (oracle : List (List (String × String)) → OpenAIRun)
        (tcs : List (String × ToolCallable)) (max_turns : Nat) (content : String),
        0 < max_turns →
        (oracle []).status = .completed →
        OpenAIFunctionAgent.execute oracle tcs max_turns ⟨.str content⟩
          = ⟨.ok ⟨(oracle []).text, (oracle []).raw⟩, 1, []⟩) := by
  refine ⟨?_, ?_, ?_, ?_⟩
  · intro oracle tcs max_turns content resp hmt hchat hfc
    cases max_turns with
    | zero => omega
    | succ n =>
      simp only [GeminiFunctionAgent.execute, geminiAgentLoop, hchat, hfc]
      simp
  · intro oracle tcs max_turns content resp hmt hchat hfc
    cases max_turns with
    | zero => omega
    | succ n =>
      simp only [GroqFunctionAgent.execute, groqAgentLoop, hchat, hfc]
      simp
  · intro oracle tcs max_turns content resp hmt hchat hfc
    cases max_turns with
    | zero => omega
    | succ n =>
      simp only [CohereFunctionAgent.execute, cohereAgentLoop, hchat, hfc]
      simp
  · intro oracle tcs max_turns content hmt hst
    cases max_turns with
    | zero => omega
    | succ n =>
      simp only [OpenAIFunctionAgent.execute, openaiAgentLoop, hst]

/-- Witness for C7 at concrete text-only models for all four agents. -/
theorem claim_C7_witness :
    GeminiFunctionAgent.execute geminiTextOracle [] 5 ⟨.str "q"⟩
      = ⟨.ok ⟨some "hello", "raw"⟩, 1, []⟩
  ∧ GroqFunctionAgent.execute groqTextOracle [] 5 ⟨.str "q"⟩
      = ⟨.ok ⟨some "hello", "raw"⟩, 1, []⟩
  ∧ CohereFunctionAgent.execute cohereTextOracle [] 5 ⟨.str "q"⟩
      = ⟨.ok ⟨some "hello", "raw"⟩, 1, []⟩
  ∧ OpenAIFunctionAgent.execute openaiTextOracle [] 5 ⟨.str "q"⟩
      = ⟨.ok ⟨some "hello", "raw"⟩, 1, []⟩ :=
  ⟨claim_C7.1 geminiTextOracle [] 5 "q" ⟨some "hello", "raw", none⟩ (by decide) rfl rfl,
   (claim_C7.2.1) groqTextOracle [] 5 "q" ⟨some "hello", "raw", none⟩ (by decide) rfl rfl,
   (claim_C7.2.2.1) cohereTextOracle [] 5 "q" ⟨some "hello", "raw", none⟩ (by decide) rfl rfl,
   (claim_C7.2.2.2) openaiTextOracle [] 5 "q" (by decide) rfl⟩

/-- Claim C8: every agent and every text-generation task rejects a
non-string input content with the `ValueError` before any provider call:
the trace records zero model invocations (and no tool invocation). -/
theorem claim_C8 :
    (∀ (oracle : List (List (String × String)) → OpenAIRun)
        (tcs : List (String × ToolCallable)) (max_turns : Nat) (input : TaskInput PyObj),
        input.content.isStr = false →
        OpenAIFunctionAgent.execute oracle tcs max_turns input
          = ⟨.error contentTypeError, 0, []⟩)
  ∧ (∀ (oracle : List GeminiMsg → GeminiReply)
        (tcs : List (String × ToolCallable)) (max_turns : Nat) (input : TaskInput PyObj),
        input.content.isStr = false →
        GeminiFunctionAgent.execute oracle tcs max_turns input
          = ⟨.error contentTypeError, 0, []⟩)
  ∧ (∀ (oracle : List GroqMsg → GroqReply)
        (tcs : List (String × ToolCallable)) (max_turns : Nat) (input : TaskInput PyObj),
        input.content.isStr = false →
        GroqFunctionAgent.execute oracle tcs max_turns input
          = ⟨.error contentTypeError, 0, []⟩)
  ∧ (∀ (oracle : List String → List CohereToolResult → CohereReply)
        (tcs : List (String × ToolCallable)) (max_turns : Nat) (input : TaskInput PyObj),
        input.content.isStr = false →
        CohereFunctionAgent.execute oracle tcs max_turns input
          = ⟨.error contentTypeError, 0, []⟩)
  ∧ (∀ (oracle : List GeminiMsg → GeminiReply) (input : TaskInput PyObj),
        input.content.isStr = false →
        GeminiTextGenTask.execute oracle input = (.error contentTypeError, 0))
  ∧ (∀ (oracle : List GroqMsg → GroqReply) (input : TaskInput PyObj),
        input.content.isStr = false →
        GroqTextGenTask.execute oracle input = (.error contentTypeError, 0))
  ∧ (∀ (oracle : String → CohereReply) (input : TaskInput PyObj),
        input.content.isStr = false →
        CohereTextGenTask.execute oracle input = (.error contentTypeError, 0))
  ∧ (∀ (oracle : String → ChatResponse) (input : TaskInput PyObj),
        input.content.isStr = false →
        OpenAITextGenTask.execute oracle input = (.error contentTypeError, 0))
  ∧ (∀ (oracle : String → String × String) (input : TaskInput PyObj),
        input.content.isStr = false →
        ClaudeTextGenTask.execute oracle input = (.error contentTypeError, 0)) := by
  refine ⟨?_, ?_, ?_, ?_, ?_, ?_, ?_, ?_, ?_⟩ <;>
    first
    | (intro oracle tcs max_turns input h
       rcases input with ⟨content⟩
       cases content <;> first | rfl | simp [PyObj.isStr] at h)
    | (intro oracle input h
       rcases input with ⟨content⟩
       cases content <;> first | rfl | simp [PyObj.isStr] at h)

/-- Witness for C8: an integer-content input is rejected with zero provider
calls by all nine execute entry points. -/
theorem claim_C8_witness :
    OpenAIFunctionAgent.execute openaiTextOracle [] 5 ⟨.int 3⟩
      = ⟨.error contentTypeError, 0, []⟩
  ∧ GeminiFunctionAgent.execute geminiTextOracle [] 5 ⟨.int 3⟩
      = ⟨.error contentTypeError, 0, []⟩
  ∧ GroqFunctionAgent.execute groqTextOracle [] 5 ⟨.int 3⟩
      = ⟨.error contentTypeError, 0, []⟩
  ∧ CohereFunctionAgent.execute cohereTextOracle [] 5 ⟨.int 3⟩
      = ⟨.error contentTypeError, 0, []⟩
  ∧ GeminiTextGenTask.execute geminiTextOracle ⟨.int 3⟩ = (.error contentTypeError, 0)
  ∧ GroqTextGenTask.execute groqTextOracle ⟨.int 3⟩ = (.error contentTypeError, 0)
  ∧ CohereTextGenTask.execute (fun _ => cohereToolReply) ⟨.int 3⟩ = (.error contentTypeError, 0)
  ∧ OpenAITextGenTask.execute openaiTextgenOracle ⟨.int 3⟩ = (.error contentTypeError, 0)
  ∧ ClaudeTextGenTask.execute claudeOracle ⟨.int 3⟩ = (.error contentTypeError, 0) :=
  ⟨claim_C8.1 openaiTextOracle [] 5 ⟨.int 3⟩ rfl,
   claim_C8.2.1 geminiTextOracle [] 5 ⟨.int 3⟩ rfl,
   claim_C8.2.2.1 groqTextOracle [] 5 ⟨.int 3⟩ rfl,
   claim_C8.2.2.2.1 cohereTextOracle [] 5 ⟨.int 3⟩ rfl,
   claim_C8.2.2.2.2.1 geminiTextOracle ⟨.int 3⟩ rfl,
   claim_C8.2.2.2.2.2.1 groqTextOracle ⟨.int 3⟩ rfl,
   claim_C8.2.2.2.2.2.2.1 (fun _ => cohereToolReply) ⟨.int 3⟩ rfl,
   claim_C8.2.2.2.2.2.2.2.1 openaiTextgenOracle ⟨.int 3⟩ rfl,
   claim_C8.2.2.2.2.2.2.2.2 claudeOracle ⟨.int 3⟩ rfl⟩

/-- Counterexample to claim C3 as stated: for the OpenAI variant with
`max_turns = 1` and a model that always requires a tool call, the agent
submits the tool outputs back to the model (`submit_tool_outputs_and_poll`)
within the single turn, so a second model invocation happens before
`MaxTurnsReachedException` is raised — the trace records two model calls,
not one. -/
theorem claim_C3_counterexample :
    OpenAIFunctionAgent.execute openaiToolOracle demoCallables 1 ⟨.str "q"⟩
      = ⟨.error .maxTurnsReached, 2, ["f"]⟩
  ∧ (OpenAIFunctionAgent.execute openaiToolOracle demoCallables 1 ⟨.str "q"⟩).model_calls ≠ 1 :=
  ⟨rfl, by decide⟩

/-- Claim C3 (amended): with `max_turns = 1` and a first model response
requesting a single registered tool call, the Gemini and Cohere agents raise
the turns-exhausted error after exactly one model invocation with the tool
invoked exactly once; the OpenAI agent invokes the tool once but submits the
outputs back to the model — a second model invocation — before the error;
the Groq agent never reaches the turns-exhausted error at all: its chat
primitive raises `TypeError` while constructing the function-call records
(`FunctionCall` has no `name` parameter), which propagates after one model
invocation with no tool invoked. -/
theorem claim_C3 :
    (∀ (oracle : List GeminiMsg → GeminiReply) (tcs : List (String × ToolCallable))
        (content f : String) (fc : FunctionCall) (resp : ChatResponse)
        (callable : ToolCallable),
        BaseGeminiChat.chat (oracle [.user content]) = .ok resp →
        resp.function_calls = some [(f, fc)] →
        dictGet f tcs = some callable →
        GeminiFunctionAgent.execute oracle tcs 1 ⟨.str content⟩
          = ⟨.error .maxTurnsReached, 1, [f]⟩)
  ∧ (∀ (oracle : List GroqMsg → GroqReply) (tcs : List (String × ToolCallable))
        (content : String) (c : GroqChoice),
        (oracle [.user content]).choices.find?
            (fun x => x.finish_reason == "tool_calls") = some c →
        c.tool_calls ≠ [] →
        GroqFunctionAgent.execute oracle tcs 1 ⟨.str content⟩
          = ⟨.error groqFunctionCallTypeError, 1, []⟩)
  ∧ (∀ (oracle : List String → List CohereToolResult → CohereReply)
        (tcs : List (String × ToolCallable))
        (content f : String) (fc : FunctionCall) (resp : ChatResponse)
        (callable : ToolCallable),
        BaseCohereChat.chat (oracle [] []) = .ok resp →
        resp.function_calls = some [(f, fc)] →
        dictGet f tcs = some callable →
        CohereFunctionAgent.execute oracle tcs 1 ⟨.str content⟩
          = ⟨.error .maxTurnsReached, 1, [f]⟩)
  ∧ (∀ (oracle : List (List (String × String)) → OpenAIRun)
        (tcs : List (String × ToolCallable)) (content : String)
        (tc : OpenAIToolCall) (callable : ToolCallable),
        (oracle []).status = .requires_action →
        (oracle []).tool_calls = [tc] →
        dictGet tc.name tcs = some callable →
        OpenAIFunctionAgent.execute oracle tcs 1 ⟨.str content⟩
          = ⟨.error .maxTurnsReached, 2, [tc.name]⟩) := by
  refine ⟨?_, ?_, ?_, ?_⟩
  · intro oracle tcs content f fc resp callable hchat hfc hcall
    simp only [GeminiFunctionAgent.execute, geminiAgentLoop, hchat, hfc,
      geminiDispatch, hcall]
    simp
  · intro oracle tcs content c hfind hne
    have hempty : c.tool_calls.isEmpty = false := by
      cases h : c.tool_calls with
      | nil => exact absurd h hne
      | cons a l => rfl
    simp only [GroqFunctionAgent.execute, groqAgentLoop, BaseGroqChat.chat,
      hfind, hempty]
    simp
  · intro oracle tcs content f fc resp callable hchat hfc hcall
    simp only [CohereFunctionAgent.execute, cohereAgentLoop, hchat, hfc,
      cohereDispatch, hcall]
    simp
  · intro oracle tcs content tc callable hst htc hcall
    simp only [OpenAIFunctionAgent.execute, openaiAgentLoop, hst, htc,
      openaiDispatch, hcall]
    simp

/-- Witness for C3 (amended) at concrete always-tool-calling models for all
four agents. -/
theorem claim_C3_witness :
    GeminiFunctionAgent.execute geminiToolOracle demoCallables 1 ⟨.str "q"⟩
      = ⟨.error .maxTurnsReached, 1, ["f"]⟩
  ∧ GroqFunctionAgent.execute groqToolOracle demoCallables 1 ⟨.str "q"⟩
      = ⟨.error groqFunctionCallTypeError, 1, []⟩
  ∧ CohereFunctionAgent.execute cohereToolOracle demoCallables 1 ⟨.str "q"⟩
      = ⟨.error .maxTurnsReached, 1, ["f"]⟩
  ∧ OpenAIFunctionAgent.execute openaiToolOracle demoCallables 1 ⟨.str "q"⟩
      = ⟨.error .maxTurnsReached, 2, ["f"]⟩ :=
  ⟨claim_C3.1 geminiToolOracle demoCallables "q" "f" ⟨none, []⟩
     ⟨none, "raw", some [("f", ⟨none, []⟩)]⟩ (fun _ => .str "out") rfl rfl rfl,
   claim_C3.2.1 groqToolOracle demoCallables "q"
     ⟨"tool_calls", some "", [⟨"id1", "f", []⟩]⟩ rfl (by decide),
   claim_C3.2.2.1 cohereToolOracle demoCallables "q" "f" ⟨none, []⟩
     ⟨some "", "raw", some [("f", ⟨none, []⟩)]⟩ (fun _ => .str "out") rfl rfl rfl,
   claim_C3.2.2.2 openaiToolOracle demoCallables "q" ⟨"id1", "f", []⟩
     (fun _ => .str "out") rfl rfl rfl⟩

/-- The `ChatResponse` the Cohere chat primitive produces for
`cohereToolReply`: non-empty `function_calls` yet a non-`None` text. -/
def cohereToolResponse : ChatResponse := ⟨some "", "raw", some [("f", ⟨none, []⟩)]⟩

/-- Counterexample to claim C4 as stated: the Cohere chat primitive, given a
completed reply carrying a tool call and the (empty-string) reply text,
produces a `ChatResponse` whose `function_calls` is non-empty while `text`
is `some ""`, not `None`. -/
theorem claim_C4_counterexample :
    BaseCohereChat.chat cohereToolReply = .ok cohereToolResponse
  ∧ cohereToolResponse.function_calls.getD [] ≠ []
  ∧ cohereToolResponse.text ≠ none :=
  ⟨rfl, by decide, by decide⟩

/-- Claim C4 (amended): only the Gemini chat primitive establishes the
invariant that `text` is `None` exactly when `function_calls` is non-empty.
The Cohere primitive always passes the reply's text through (`some _`), so
its function-call responses carry non-`None` text.  The Groq primitive never
produces a `ChatResponse` carrying function calls at all: its tool-calls
branch raises `TypeError` while constructing the records (`FunctionCall` has
no `name` parameter), and every response it does produce has an empty
function-call dict. -/
theorem claim_C4 :
    (∀ (reply : GeminiReply) (resp : ChatResponse),
        BaseGeminiChat.chat reply = .ok resp →
        (resp.text = none ↔ resp.function_calls.getD [] ≠ []))
  ∧ (∀ (reply : CohereReply) (resp : ChatResponse),
        BaseCohereChat.chat reply = .ok resp → resp.text = some reply.text)
  ∧ (∀ (reply : GroqReply) (c : GroqChoice),
        reply.choices.find? (fun x => x.finish_reason == "tool_calls") = some c →
        c.tool_calls ≠ [] →
        BaseGroqChat.chat reply = .error groqFunctionCallTypeError)
  ∧ (∀ (reply : GroqReply) (resp : ChatResponse),
        BaseGroqChat.chat reply = .ok resp → resp.function_calls.getD [] = []) := by
  refine ⟨?_, ?_, ?_, ?_⟩
  · intro reply resp h
    unfold BaseGeminiChat.chat at h
    split at h
    · cases h
    · split at h
      · cases h
      · split at h
        · injection h with h
          subst h
          simp
        · split at h
          · cases h
          · injection h with h
            subst h
            simp
  · intro reply resp h
    unfold BaseCohereChat.chat at h
    split at h
    · cases h
    · injection h with h
      subst h
      rfl
  · intro reply c hfind hne
    have hempty : c.tool_calls.isEmpty = false := by
      cases h : c.tool_calls with
      | nil => exact absurd h hne
      | cons a l => rfl
    unfold BaseGroqChat.chat
    rw [hfind]
    simp [hempty]
  · intro reply resp h
    unfold BaseGroqChat.chat at h
    split at h
    · split at h
      · injection h with h
        subst h
        rfl
      · cases h
    · split at h
      · cases h
      · injection h with h
        subst h
        rfl

/-- Witness for C4 (amended) at concrete replies: a Gemini text reply and a
Gemini tool reply satisfy the equivalence, the Cohere text passes through,
the Groq tool-calls reply raises the `TypeError`, and a Groq stop reply
yields an empty function-call dict. -/
theorem claim_C4_witness :
    ((⟨some "hello", "raw", none⟩ : ChatResponse).text = none
        ↔ (⟨some "hello", "raw", none⟩ : ChatResponse).function_calls.getD [] ≠ [])
  ∧ ((⟨none, "raw", some [("f", ⟨none, []⟩)]⟩ : ChatResponse).text = none
        ↔ (⟨none, "raw", some [("f", ⟨none, []⟩)]⟩ : ChatResponse).function_calls.getD [] ≠ [])
  ∧ (⟨some "hello", "raw", none⟩ : ChatResponse).text = some "hello"
  ∧ BaseGroqChat.chat ⟨[⟨"tool_calls", some "", [⟨"id1", "f", []⟩]⟩], "raw"⟩
      = .error groqFunctionCallTypeError
  ∧ (⟨some "hello", "raw", none⟩ : ChatResponse).function_calls.getD [] = [] :=
  ⟨claim_C4.1 ⟨none, [⟨.stop, [⟨none, "hello"⟩]⟩], "raw"⟩ ⟨some "hello", "raw", none⟩ rfl,
   claim_C4.1 ⟨none, [⟨.stop, [⟨some ⟨"f", []⟩, ""⟩]⟩], "raw"⟩
     ⟨none, "raw", some [("f", ⟨none, []⟩)]⟩ rfl,
   claim_C4.2.1 ⟨"COMPLETE", "hello", none, [], "raw"⟩ ⟨some "hello", "raw", none⟩ rfl,
   claim_C4.2.2.1 ⟨[⟨"tool_calls", some "", [⟨"id1", "f", []⟩]⟩], "raw"⟩
     ⟨"tool_calls", some "", [⟨"id1", "f", []⟩]⟩ rfl (by decide),
   claim_C4.2.2.2 ⟨[⟨"stop", some "hello", []⟩], "raw"⟩ ⟨some "hello", "raw", none⟩ rfl⟩

end LLMSmith
